import Mathlib

/-!
Verification of the core logic of the Misskey-post-Viewer program.

The Rust source is embedded shallowly:
* `src/emoji.rs` (the asset cache `EmojiCache`) becomes an explicit state
  type with pure transition functions; texture handles are modelled as
  natural-number ids, raw pixel data is dropped because no modelled code
  reads it, and `HashMap` becomes an association list whose insert
  replaces an existing binding.
* The per-account connection loop of `src/main.rs` becomes a step
  function on the consecutive-failure counter.
* The note-normalisation text pipeline of `src/main.rs` works on
  `List Char`, mirroring Rust's `chars()` character-count semantics.
* `src/config.rs` token obfuscation becomes XOR-with-cyclic-key plus a
  full model of standard Base64 with padding.
-/

namespace MisskeyViewer

/-! ## Association-list model of HashMap -/

/-- Lookup in the association-list model of `HashMap<String, α>`. -/
def lookupA {α : Type} (m : List (String × α)) (k : String) : Option α :=
  (m.find? (fun p => p.1 == k)).map (fun p => p.2)

/-- `HashMap::insert`: replaces any existing binding of the key. -/
def insertA {α : Type} (m : List (String × α)) (k : String) (v : α) :
    List (String × α) :=
  (k, v) :: m.filter (fun p => !(p.1 == k))

/-- `HashMap::remove`. -/
def removeA {α : Type} (m : List (String × α)) (k : String) :
    List (String × α) :=
  m.filter (fun p => !(p.1 == k))

/-! ## Asset cache state (src/emoji.rs) -/

/-- `AnimatedEmoji` from src/emoji.rs.  `frames` (raw `ColorImage` data) is
dropped: the modelled code never reads it.  Durations are milliseconds
(`u32`, modelled as `Nat`; no modelled scenario approaches `2^32`). -/
structure AnimatedEmoji where
  frameDurations : List Nat
  textures : List Nat
  currentFrame : Nat
  elapsedMs : Nat
deriving Repr, DecidableEq

/-- The mutable maps of `EmojiCache`.  The mpsc channel endpoints are not
state observed by the claims; a received message is fed to
`processDownload` explicitly. -/
structure EmojiCacheState where
  staticCache : List (String × Option Nat)
  animatedCache : List (String × AnimatedEmoji)
  downloading : List (String × Bool)
deriving Repr, DecidableEq

/-- What one call of `EmojiCache::load_emoji` returns and does: the returned
texture, the cache state after the call, and whether a background download
thread was spawned by this call. -/
structure LoadEmojiResult where
  result : Option Nat
  state : EmojiCacheState
  spawned : Bool
deriving Repr, DecidableEq

/-- `EmojiCache::load_emoji` (src/emoji.rs lines 38-103).  The animated-hit
path indexes `textures[current_frame]`; the source would panic out of
range, modelled by `get?` (in-range by the loaders' construction). -/
def loadEmoji (st : EmojiCacheState) (url : String) : LoadEmojiResult :=
  match lookupA st.animatedCache url with
  | some anim => { result := anim.textures.get? anim.currentFrame, state := st, spawned := false }
  | none =>
    match lookupA st.staticCache url with
    | some cached => { result := cached, state := st, spawned := false }
    | none =>
      if (lookupA st.downloading url).isSome then
        { result := none, state := st, spawned := false }
      else
        { result := none,
          state := { st with downloading := insertA st.downloading url true },
          spawned := true }

/-- Possible outcomes of the spawned download thread (src/emoji.rs
lines 62-100). -/
inductive FetchOutcome
  | clientBuildErr
  | sendErr
  | httpStatusErr
  | bytesReadErr
  | success (bytes : List Nat)

/-- The message the download thread sends on the channel: every failure arm
sends the pair of the url and an empty byte vector. -/
def fetchMessage (url : String) : FetchOutcome → String × List Nat
  | .success bytes => (url, bytes)
  | _ => (url, [])

/-- `load_gif_frames` records each frame's computed duration unchanged:
`frame_durations.push(duration_ms)` (src/emoji.rs line 120).  The argument
is the list of per-frame `duration_ms` values obtained from the decoder's
delays. -/
def gifFrameDurations (rawDurations : List Nat) : List Nat := rawDurations

/-- `load_apng_frames` floors each duration at 10 ms:
`frame_durations.push(duration_ms.max(10))` (src/emoji.rs line 171). -/
def apngFrameDurations (rawDurations : List Nat) : List Nat :=
  rawDurations.map (fun d => max d 10)

/-- Output of an animated decoder: per-frame computed `duration_ms` values
and the uploaded texture ids. -/
structure DecodeOut where
  rawDurations : List Nat
  textures : List Nat
deriving Repr, DecidableEq

/-- The image decoding done by the `image` crate is outside the modelled
source, so the three decode paths of `process_downloads` take their
outcomes from this record (`none` is a decode error; for `apng` it also
covers "not an APNG"). -/
structure Decoders where
  gif : List Nat → Option DecodeOut
  apng : List Nat → Option DecodeOut
  staticImg : List Nat → Option Nat

/-- The 8-byte PNG magic signature checked at src/emoji.rs line 241. -/
def pngMagic : List Nat := [0x89, 0x50, 0x4E, 0x47, 0x0D, 0x0A, 0x1A, 0x0A]

/-- Rust's `str::ends_with(".gif")`, character-wise. -/
def strEndsWith (s post : String) : Bool :=
  List.isSuffixOf (String.toList post) (String.toList s)

/-- One iteration of `EmojiCache::process_downloads` (src/emoji.rs
lines 213-279) on a received `(url, bytes)` message. -/
def processDownload (dec : Decoders) (st : EmojiCacheState) (url : String)
    (bytes : List Nat) : EmojiCacheState :=
  let st1 : EmojiCacheState := { st with downloading := removeA st.downloading url }
  if bytes.isEmpty then
    { st1 with staticCache := insertA st1.staticCache url none }
  else if strEndsWith url ".gif" then
    match dec.gif bytes with
    | some d =>
      if d.textures.isEmpty then st1
      else
        let entry : AnimatedEmoji :=
          { frameDurations := gifFrameDurations d.rawDurations,
            textures := d.textures, currentFrame := 0, elapsedMs := 0 }
        { st1 with animatedCache := insertA st1.animatedCache url entry }
    | none => { st1 with staticCache := insertA st1.staticCache url none }
  else
    let apngRes : Option DecodeOut :=
      if 8 < bytes.length ∧ bytes.take 8 = pngMagic then dec.apng bytes else none
    match apngRes with
    | some d =>
      if d.textures.isEmpty then st1
      else
        let entry : AnimatedEmoji :=
          { frameDurations := apngFrameDurations d.rawDurations,
            textures := d.textures, currentFrame := 0, elapsedMs := 0 }
        { st1 with animatedCache := insertA st1.animatedCache url entry }
    | none =>
      match dec.staticImg bytes with
      | some tex => { st1 with staticCache := insertA st1.staticCache url (some tex) }
      | none => { st1 with staticCache := insertA st1.staticCache url none }

/-- `EmojiCache::update_animations` on one entry (src/emoji.rs
lines 199-211).  Note the single `if`: at most one frame advance per call.
The source computes the advance modulo `textures.len()`; with empty
textures the source would divide by zero, never reachable from the
loaders, which only cache non-empty texture lists. -/
def updateAnimation (dtMs : Nat) (a : AnimatedEmoji) : AnimatedEmoji :=
  let elapsed := a.elapsedMs + dtMs
  if h : a.currentFrame < a.frameDurations.length then
    let d := a.frameDurations.get ⟨a.currentFrame, h⟩
    if d ≤ elapsed then
      { a with elapsedMs := elapsed - d,
               currentFrame := (a.currentFrame + 1) % a.textures.length }
    else
      { a with elapsedMs := elapsed }
  else
    { a with elapsedMs := elapsed }

/-- `EmojiCache::update_animations` over the whole cache. -/
def updateAnimations (st : EmojiCacheState) (dtMs : Nat) : EmojiCacheState :=
  { st with animatedCache := st.animatedCache.map (fun p => (p.1, updateAnimation dtMs p.2)) }

/-! ## Note text pipeline (src/main.rs, note-processing inside the
per-account task).  Text is `List Char`, matching the character-count
semantics of Rust's `chars()`. -/

/-- The three dots appended by the truncating `format!` calls. -/
def ellipsisChars : List Char := ['.', '.', '.']

/-- Character-count truncation (src/main.rs lines 842-846 and 868-872):
keep the text whole at up to `limit` characters, otherwise take the first
`limit` characters and append the ellipsis. -/
def truncateChars (limit : Nat) (s : List Char) : List Char :=
  if limit < s.length then s.take limit ++ ellipsisChars else s

/-- The characters of the "CW: " marker prepended to content warnings. -/
def cwMarker : List Char := ['C', 'W', ':', ' ']

/-- CW-priority raw body of a renote (src/main.rs lines 831-839): the CW
text prefixed with the marker when present and non-empty, else the plain
text (empty when absent). -/
def cwPriorityText (cw text : Option (List Char)) : List Char :=
  match cw with
  | some c => if c.isEmpty then text.getD [] else cwMarker ++ c
  | none => text.getD []

/-- The renote body shown as repost provenance (src/main.rs lines 830-846):
CW-priority text truncated to 80 characters. -/
def renoteBody (cw text : Option (List Char)) : List Char :=
  truncateChars 80 (cwPriorityText cw text)

/-- Body selection (src/main.rs lines 853-865): the computed renote body
when the frame is a renote, else the note's own CW-priority text. -/
def textContent (renoteText : Option (List Char)) (cw text : Option (List Char)) :
    List Char :=
  match renoteText with
  | some rn => rn
  | none => cwPriorityText cw text

/-- The displayed body: selected content truncated to 100 characters
(src/main.rs lines 867-872). -/
def displayedBody (renoteText cw text : Option (List Char)) : List Char :=
  truncateChars 100 (textContent renoteText cw text)

/-! ## Shortcode scanning and lookup (src/main.rs lines 746-769 and
807-828).  The scan embeds `Regex::captures_iter` with the pattern
colon, one or more of `[a-zA-Z0-9_]`, colon — leftmost, non-overlapping
matches. -/

/-- The character class `[a-zA-Z0-9_]` of the shortcode pattern
(src/main.rs line 748). -/
def isShortcodeChar (c : Char) : Bool :=
  (decide ('a' ≤ c) && decide (c ≤ 'z')) ||
  (decide ('A' ≤ c) && decide (c ≤ 'Z')) ||
  (decide ('0' ≤ c) && decide (c ≤ '9')) ||
  c == '_'

/-- Scanner state machine for the pattern: `none` means no opening colon is
pending; `some acc` means an opening colon was read and `acc` is the name
matched so far.  A colon after a non-empty name closes a match (and is
consumed, so matches never overlap); a colon after an empty name is itself
the new opening colon; a character outside the class aborts the pending
match and cannot open a new one. -/
def scanAux : Option (List Char) → List Char → List (List Char)
  | _, [] => []
  | none, c :: rest =>
    if c = ':' then scanAux (some []) rest else scanAux none rest
  | some acc, c :: rest =>
    if c = ':' then
      if acc.isEmpty then scanAux (some []) rest
      else acc :: scanAux none rest
    else if isShortcodeChar c then scanAux (some (acc ++ [c])) rest
    else scanAux none rest

/-- All `capture group 1` strings of the shortcode pattern over a text, in
match order. -/
def scanShortcodes (l : List Char) : List (List Char) := scanAux none l

/-- `EmojiInfo` from src/emoji.rs, with text as `List Char`. -/
structure EmojiRef where
  name : List Char
  url : List Char
deriving Repr, DecidableEq

/-- The per-frame shortcode lookup loop (src/main.rs lines 754-769, and
813-828 for the renote pass).  `lookup` stands for the chain
`reqwest::get(https://host/api/emoji?name=...)` → JSON decode → field
"url": `some url` exactly when every step succeeds.  Returns the final
emoji vec and, in order, the shortcodes for which an HTTP lookup was
issued. -/
def lookupLoop (lookup : List Char → Option (List Char)) :
    List EmojiRef → List (List Char) → List EmojiRef × List (List Char)
  | emojis, [] => (emojis, [])
  | emojis, n :: ns =>
    if emojis.any (fun e => e.name == n) then
      lookupLoop lookup emojis ns
    else
      match lookup n with
      | some u =>
        let r := lookupLoop lookup (emojis ++ [{ name := n, url := u }]) ns
        (r.1, n :: r.2)
      | none =>
        let r := lookupLoop lookup emojis ns
        (r.1, n :: r.2)

/-- One frame's two lookup passes (note text + author name, then renote
text + CW + original author name), sharing one emoji vec; second component
collects every lookup issued while the frame was processed. -/
def frameLookups (lookup : List Char → Option (List Char)) (emojis0 : List EmojiRef)
    (noteNames renoteNames : List (List Char)) : List EmojiRef × List (List Char) :=
  let r1 := lookupLoop lookup emojis0 noteNames
  let r2 := lookupLoop lookup r1.1 renoteNames
  (r2.1, r1.2 ++ r2.2)

/-! ## Per-account connection loop (src/main.rs lines 680-931). -/

/-- Outcome of one outer iteration of a per-account loop. -/
inductive ConnEvent
  | connectFail
  | subscribeFail
  | sessionEnd
deriving Repr, DecidableEq

/-- The sleep computed on connection failure (src/main.rs line 927):
`min(2u64.pow(consecutive_failures.saturating_sub(1)), 5)` after the
counter was incremented.  `u64` `pow` wraps in release builds, hence the
mod; saturating subtraction on `Nat` is plain subtraction. -/
def backoffWait (failures : Nat) : Nat :=
  min (2 ^ (failures - 1) % 2 ^ 64) 5

/-- One outer iteration of the per-account loop: the consecutive-failure
counter after the iteration and the sleep in seconds before the next, if
any.  A successful connect sets the counter to 0 (src/main.rs line 688)
before the subscribe is attempted; a failed subscribe then increments it
and sleeps a fixed 2 seconds (lines 696-697); a session that subscribes
and later ends breaks the read loop and reconnects without sleeping. -/
def connStep (failures : Nat) : ConnEvent → Nat × Option Nat
  | .connectFail => (failures + 1, some (backoffWait (failures + 1)))
  | .subscribeFail => (0 + 1, some 2)
  | .sessionEnd => (0, none)

/-- The sleeps performed over a sequence of iteration outcomes. -/
def connTrace (failures : Nat) : List ConnEvent → List (Option Nat)
  | [] => []
  | e :: es =>
    let r := connStep failures e
    r.2 :: connTrace r.1 es

/-! ## Token obfuscation (src/config.rs lines 5-28).  Tokens are handled as
their UTF-8 byte lists; standard Base64 with mandatory padding and
rejected trailing bits models the base64 crate's STANDARD engine. -/

/-- The alphabet of standard Base64. -/
def base64Table : List Char :=
  String.toList "ABCDEFGHIJKLMNOPQRSTUVWXYZabcdefghijklmnopqrstuvwxyz0123456789+/"

/-- The character encoding a 6-bit group. -/
def encSextet (n : Nat) : Char := base64Table.getD n 'A'

/-- The 6-bit group of an alphabet character; `none` for characters outside
the alphabet (including the padding character). -/
def decSextet (c : Char) : Option Nat := base64Table.findIdx? (fun x => x == c)

/-- Base64 encoding of a byte list, three bytes to four characters, with
padding for a 1- or 2-byte tail. -/
def base64Encode : List Nat → List Char
  | [] => []
  | [a] => [encSextet (a / 4), encSextet (a % 4 * 16), '=', '=']
  | [a, b] => [encSextet (a / 4), encSextet (a % 4 * 16 + b / 16), encSextet (b % 16 * 4), '=']
  | a :: b :: c :: rest =>
    encSextet (a / 4) :: encSextet (a % 4 * 16 + b / 16) ::
    encSextet (b % 16 * 4 + c / 64) :: encSextet (c % 64) :: base64Encode rest

/-- Base64 decoding: four characters to three bytes, padding only in a
final chunk, non-zero trailing bits rejected (the STANDARD engine's
`decode_allow_trailing_bits = false`). -/
def base64Decode : List Char → Option (List Nat)
  | [] => some []
  | c1 :: c2 :: c3 :: c4 :: rest =>
    if c3 = '=' then
      if c4 = '=' ∧ rest = [] then
        match decSextet c1, decSextet c2 with
        | some s1, some s2 => if s2 % 16 = 0 then some [s1 * 4 + s2 / 16] else none
        | _, _ => none
      else none
    else if c4 = '=' then
      if rest = [] then
        match decSextet c1, decSextet c2, decSextet c3 with
        | some s1, some s2, some s3 =>
          if s3 % 4 = 0 then some [s1 * 4 + s2 / 16, s2 % 16 * 16 + s3 / 4] else none
        | _, _, _ => none
      else none
    else
      match decSextet c1, decSextet c2, decSextet c3, decSextet c4, base64Decode rest with
      | some s1, some s2, some s3, some s4, some tl =>
        some ((s1 * 4 + s2 / 16) :: (s2 % 16 * 16 + s3 / 4) :: (s3 % 4 * 64 + s4) :: tl)
      | _, _, _, _, _ => none
  | _ => none

/-- The fixed XOR key `OBFUSCATION_KEY = b"MisskeyPostViewer2024"`
(src/config.rs line 6), as bytes. -/
def obfuscationKey : List Nat := (String.toList "MisskeyPostViewer2024").map Char.toNat

/-- The XOR pass shared by both directions: byte at index `i` is XORed
with `key_bytes[i % key_bytes.len()]`. -/
def xorCycle (i : Nat) : List Nat → List Nat
  | [] => []
  | b :: bs => (b ^^^ obfuscationKey.getD (i % obfuscationKey.length) 0) :: xorCycle (i + 1) bs

/-- `obfuscate_token` (src/config.rs lines 8-17) on the token's bytes. -/
def obfuscateToken (tokenBytes : List Nat) : List Char :=
  base64Encode (xorCycle 0 tokenBytes)

/-- `deobfuscate_token` (src/config.rs lines 19-28) down to the recovered
byte list.  The final `String::from_utf8` is not modelled: it succeeds
exactly on valid UTF-8, which the bytes of a Rust `String` always are. -/
def deobfuscateToken (encoded : List Char) : Option (List Nat) :=
  (base64Decode encoded).map (fun bs => xorCycle 0 bs)

/-! ## Concrete instances used to instantiate theorems -/

/-- The cache state right after `EmojiCache::new`. -/
def emptyCacheState : EmojiCacheState :=
  { staticCache := [], animatedCache := [], downloading := [] }

/-- Decoders that always fail. -/
def failingDecoders : Decoders :=
  { gif := fun _ => none, apng := fun _ => none, staticImg := fun _ => none }

/-- A cache state in which one URL is being downloaded. -/
def oneDownloadingState : EmojiCacheState :=
  { staticCache := [], animatedCache := [], downloading := [("http://h/x.png", true)] }

/-- The 3-frame animation of the spec's GIF example: durations
100, 150, 200 ms, cursor at frame 0, accumulator 0. -/
def threeFrameAnim : AnimatedEmoji :=
  { frameDurations := [100, 150, 200], textures := [0, 1, 2],
    currentFrame := 0, elapsedMs := 0 }

/-- A cache holding the 3-frame example animation under the key "u". -/
def threeFrameState : EmojiCacheState :=
  { staticCache := [], animatedCache := [("u", threeFrameAnim)], downloading := [] }

/-- Decoders whose GIF decode yields one frame with computed duration 0. -/
def zeroDurationGifDecoders : Decoders :=
  { gif := fun _ => some { rawDurations := [0], textures := [7] },
    apng := fun _ => none, staticImg := fun _ => none }

/-- Decoders whose APNG decode yields two frames with computed durations
0 and 50 ms. -/
def apngExampleDecoders : Decoders :=
  { gif := fun _ => none,
    apng := fun _ => some { rawDurations := [0, 50], textures := [3, 4] },
    staticImg := fun _ => none }

/-! ## Shared helper lemmas -/

theorem lookupA_insertA_self {α : Type} (m : List (String × α)) (k : String) (v : α) :
    lookupA (insertA m k v) k = some v := by
  simp [lookupA, insertA, List.find?]

theorem lookupA_removeA_self {α : Type} (m : List (String × α)) (k : String) :
    lookupA (removeA m k) k = none := by
  have hfind : List.find? (fun p => p.1 == k) (removeA m k) = none := by
    rw [List.find?_eq_none]
    intro p hp
    have h2 := List.of_mem_filter hp
    simpa using h2
  simp [lookupA, hfind]

/-! ## C1: single scheduled fetch per unresolved URL -/

/-- C1: the first `load_emoji` request for a URL that is in neither cache
and not downloading returns `none`, marks the URL downloading, spawns
exactly one fetch thread and touches no cache; and any request made while
the URL is (still) downloading and undecoded returns `none` without
spawning and leaves the state unchanged — so the URL's fetch is scheduled
exactly once while it is unresolved. -/
theorem load_emoji_spawns_single_fetch (st : EmojiCacheState) (url : String)
    (hA : lookupA st.animatedCache url = none)
    (hS : lookupA st.staticCache url = none)
    (hD : lookupA st.downloading url = none) :
    (loadEmoji st url).spawned = true ∧
    (loadEmoji st url).result = none ∧
    (loadEmoji st url).state.staticCache = st.staticCache ∧
    (loadEmoji st url).state.animatedCache = st.animatedCache ∧
    lookupA (loadEmoji st url).state.downloading url = some true ∧
    (∀ st' : EmojiCacheState,
      lookupA st'.animatedCache url = none →
      lookupA st'.staticCache url = none →
      (lookupA st'.downloading url).isSome = true →
      loadEmoji st' url = { result := none, state := st', spawned := false }) := by
  refine ⟨?_, ?_, ?_, ?_, ?_, ?_⟩
  · simp [loadEmoji, hA, hS, hD]
  · simp [loadEmoji, hA, hS, hD]
  · simp [loadEmoji, hA, hS, hD]
  · simp [loadEmoji, hA, hS, hD]
  · simp [loadEmoji, hA, hS, hD, lookupA_insertA_self]
  · intro st' h1 h2 h3
    simp [loadEmoji, h1, h2, h3]

/-- Witness for C1 at a concrete empty cache. -/
theorem load_emoji_spawns_single_fetch_witness :
    (loadEmoji emptyCacheState "http://h/e.png").spawned = true ∧
    lookupA (loadEmoji emptyCacheState "http://h/e.png").state.downloading
      "http://h/e.png" = some true := by
  have h := load_emoji_spawns_single_fetch emptyCacheState "http://h/e.png" rfl rfl rfl
  exact ⟨h.1, h.2.2.2.2.1⟩

/-! ## C6: failed downloads become terminal negative entries -/

/-- C6: every failure arm of the fetch thread reports the url with empty
bytes; processing that message removes the url from `downloading` and
caches the negative entry `none`, and both of the in-process decode
failure paths (GIF decode error; non-GIF with no APNG and a static decode
error) cache the negative entry as well.  Afterwards `load_emoji` returns
the negative result (`none`) without scheduling another fetch and without
changing the state. -/
theorem failed_download_cached_negative (dec : Decoders) (st : EmojiCacheState)
    (url : String) (hA : lookupA st.animatedCache url = none) :
    (∀ o : FetchOutcome, (∀ bs, o ≠ FetchOutcome.success bs) →
      fetchMessage url o = (url, [])) ∧
    (lookupA (processDownload dec st url []).staticCache url = some none ∧
     lookupA (processDownload dec st url []).downloading url = none ∧
     loadEmoji (processDownload dec st url []) url =
       { result := none, state := processDownload dec st url [], spawned := false }) ∧
    (∀ bytes, bytes ≠ [] → strEndsWith url ".gif" = true → dec.gif bytes = none →
      lookupA (processDownload dec st url bytes).staticCache url = some none ∧
      loadEmoji (processDownload dec st url bytes) url =
        { result := none, state := processDownload dec st url bytes, spawned := false }) ∧
    (∀ bytes, bytes ≠ [] → strEndsWith url ".gif" = false →
      (if 8 < bytes.length ∧ bytes.take 8 = pngMagic then dec.apng bytes else none) = none →
      dec.staticImg bytes = none →
      lookupA (processDownload dec st url bytes).staticCache url = some none ∧
      loadEmoji (processDownload dec st url bytes) url =
        { result := none, state := processDownload dec st url bytes, spawned := false }) := by
  refine ⟨?_, ⟨?_, ?_, ?_⟩, ?_, ?_⟩
  · intro o ho
    cases o with
    | success bs => exact absurd rfl (ho bs)
    | clientBuildErr => rfl
    | sendErr => rfl
    | httpStatusErr => rfl
    | bytesReadErr => rfl
  · simp [processDownload, lookupA_insertA_self]
  · simp [processDownload, lookupA_removeA_self]
  · simp [loadEmoji, processDownload, hA, lookupA_insertA_self]
  · intro bytes hb hgif hdec
    constructor
    · simp [processDownload, hb, hgif, hdec, lookupA_insertA_self]
    · simp [loadEmoji, processDownload, hb, hgif, hdec, hA, lookupA_insertA_self]
  · intro bytes hb hgif hapng hstat
    constructor
    · simp [processDownload, hb, hgif, hapng, hstat, lookupA_insertA_self]
    · simp [loadEmoji, processDownload, hb, hgif, hapng, hstat, hA, lookupA_insertA_self]

/-! ## C2: animation time advance -/

/-- C2 counterexample: `update_animations` advances at most one frame per
call — a single call with delta 260 on the 3-frame [100, 150, 200]
animation leaves the cursor at frame 1 with 160 ms accumulated, not at
frame 2 with 10 ms as claimed. -/
theorem update_animations_while_loop_cex :
    lookupA (updateAnimations threeFrameState 260).animatedCache "u" =
      some { frameDurations := [100, 150, 200], textures := [0, 1, 2],
             currentFrame := 1, elapsedMs := 160 } ∧
    ¬ ((updateAnimation 260 threeFrameAnim).currentFrame = 2 ∧
       (updateAnimation 260 threeFrameAnim).elapsedMs = 10) := by
  decide

/-- C2 amended: each `update_animations` call adds the delta to the
accumulator and then advances at most one frame (subtracting the current
frame's duration and stepping the cursor modulo the texture count when the
accumulator reached it); a large delta is absorbed over subsequent calls —
on the 3-frame example, the call with delta 260 reaches frame 1 with
160 ms, and one further call reaches frame 2 with 10 ms. -/
theorem update_animations_one_advance_per_call :
    (∀ (dt : Nat) (a : AnimatedEmoji),
      ((updateAnimation dt a).currentFrame = a.currentFrame ∧
       (updateAnimation dt a).elapsedMs = a.elapsedMs + dt) ∨
      (∃ d, a.frameDurations.get? a.currentFrame = some d ∧
        d ≤ a.elapsedMs + dt ∧
        (updateAnimation dt a).currentFrame = (a.currentFrame + 1) % a.textures.length ∧
        (updateAnimation dt a).elapsedMs = a.elapsedMs + dt - d)) ∧
    lookupA (updateAnimations (updateAnimations threeFrameState 260) 0).animatedCache "u" =
      some { frameDurations := [100, 150, 200], textures := [0, 1, 2],
             currentFrame := 2, elapsedMs := 10 } := by
  constructor
  · intro dt a
    by_cases h : a.currentFrame < a.frameDurations.length
    · by_cases h2 : a.frameDurations.get ⟨a.currentFrame, h⟩ ≤ a.elapsedMs + dt
      · right
        refine ⟨a.frameDurations.get ⟨a.currentFrame, h⟩, ?_, h2, ?_, ?_⟩
        · exact List.get?_eq_get h
        · rw [List.get_eq_getElem] at h2
          simp [updateAnimation, h, h2]
        · rw [List.get_eq_getElem] at h2
          simp [updateAnimation, h, h2]
      · left
        rw [List.get_eq_getElem] at h2
        constructor <;> simp [updateAnimation, h, h2]
    · left
      constructor <;> simp [updateAnimation, h]
  · decide

/-! ## C8: frame-duration floor -/

/-- C8 counterexample: the GIF decode path records computed durations
without any floor — a decoded GIF frame with computed duration 0 ms is
cached with duration 0, below the claimed 10 ms minimum. -/
theorem gif_duration_floor_cex :
    lookupA (processDownload zeroDurationGifDecoders emptyCacheState
      "http://h/a.gif" [1]).animatedCache "http://h/a.gif" =
      some { frameDurations := [0], textures := [7], currentFrame := 0, elapsedMs := 0 } ∧
    ¬ (∀ d ∈ gifFrameDurations [0], 10 ≤ d) := by
  decide

/-- C8 amended: only the APNG decode path floors the recorded per-frame
durations at 10 ms; the GIF path records the computed durations
unchanged. -/
theorem apng_duration_floor (dec : Decoders) (st : EmojiCacheState) (url : String)
    (bytes : List Nat) (d : DecodeOut)
    (hb : bytes ≠ [])
    (hgif : strEndsWith url ".gif" = false)
    (hapng : (if 8 < bytes.length ∧ bytes.take 8 = pngMagic then dec.apng bytes else none)
      = some d)
    (htex : d.textures.isEmpty = false) :
    lookupA (processDownload dec st url bytes).animatedCache url =
      some { frameDurations := apngFrameDurations d.rawDurations,
             textures := d.textures, currentFrame := 0, elapsedMs := 0 } ∧
    (∀ x ∈ apngFrameDurations d.rawDurations, 10 ≤ x) ∧
    (∀ raw : List Nat, gifFrameDurations raw = raw) := by
  refine ⟨?_, ?_, fun _ => rfl⟩
  · simp [processDownload, hb, hgif, hapng, htex, lookupA_insertA_self]
  · intro x hx
    simp [apngFrameDurations] at hx
    obtain ⟨y, _, hy⟩ := hx
    omega

/-- Witness for the amended C8 on a concrete APNG download. -/
theorem apng_duration_floor_witness :
    lookupA (processDownload apngExampleDecoders emptyCacheState "http://h/a.png"
      (pngMagic ++ [0])).animatedCache "http://h/a.png" =
      some { frameDurations := [10, 50], textures := [3, 4],
             currentFrame := 0, elapsedMs := 0 } := by
  have h := apng_duration_floor apngExampleDecoders emptyCacheState "http://h/a.png"
    (pngMagic ++ [0]) { rawDurations := [0, 50], textures := [3, 4] }
    (by decide) (by decide) (by decide) (by decide)
  exact h.1

/-- Witness for C6 on a concrete failed download. -/
theorem failed_download_cached_negative_witness :
    lookupA (processDownload failingDecoders oneDownloadingState
      "http://h/x.png" []).staticCache "http://h/x.png" = some none ∧
    loadEmoji (processDownload failingDecoders oneDownloadingState
      "http://h/x.png" []) "http://h/x.png" =
      { result := none,
        state := processDownload failingDecoders oneDownloadingState "http://h/x.png" [],
        spawned := false } := by
  have h := failed_download_cached_negative failingDecoders oneDownloadingState
    "http://h/x.png" rfl
  exact ⟨h.2.1.1, h.2.1.2.2⟩

/-! ## C5 and C7: displayed-body computation -/

theorem truncateChars_length_le (limit : Nat) (s : List Char) :
    (truncateChars limit s).length ≤ limit + 3 := by
  unfold truncateChars
  by_cases h : limit < s.length
  · rw [if_pos h, List.length_append, List.length_take]
    have he : ellipsisChars.length = 3 := rfl
    omega
  · rw [if_neg h]
    omega

/-- C5: the displayed body is the selected content itself at up to 100
characters and its first 100 characters plus the ellipsis otherwise, so
its character count is at most 103; the repost body is bounded by 83
characters the same way, and a 90-character renote text with no CW becomes
exactly its first 80 characters plus the ellipsis. -/
theorem displayed_body_truncation (rn cw tx : Option (List Char)) (t : List Char) :
    (displayedBody rn cw tx).length ≤ 103 ∧
    ((textContent rn cw tx).length ≤ 100 → displayedBody rn cw tx = textContent rn cw tx) ∧
    (100 < (textContent rn cw tx).length →
      displayedBody rn cw tx = (textContent rn cw tx).take 100 ++ ellipsisChars) ∧
    (renoteBody cw tx).length ≤ 83 ∧
    (t.length = 90 → renoteBody none (some t) = t.take 80 ++ ellipsisChars) := by
  refine ⟨truncateChars_length_le 100 _, ?_, ?_, truncateChars_length_le 80 _, ?_⟩
  · intro h
    have h2 : ¬ 100 < (textContent rn cw tx).length := by omega
    simp [displayedBody, truncateChars, h2]
  · intro h
    simp [displayedBody, truncateChars, h]
  · intro h
    have h2 : 80 < t.length := by omega
    have hcp : cwPriorityText none (some t) = t := rfl
    simp [renoteBody, hcp, truncateChars, h2]

/-- Witness for C5: a 150-character body is cut at 100 plus ellipsis, a
90-character renote text is cut at 80 plus ellipsis. -/
theorem displayed_body_truncation_witness :
    displayedBody none none (some (List.replicate 150 'a')) =
      (List.replicate 150 'a').take 100 ++ ellipsisChars ∧
    renoteBody none (some (List.replicate 90 'b')) =
      (List.replicate 90 'b').take 80 ++ ellipsisChars := by
  have h := displayed_body_truncation none none (some (List.replicate 150 'a'))
    (List.replicate 90 'b')
  refine ⟨h.2.2.1 ?_, h.2.2.2.2 ?_⟩
  · simp [textContent, cwPriorityText]
  · simp

/-- C7: a non-renote note with a non-empty CW displays "CW: " followed by
the CW text (then the 100-character truncation), whatever its plain text
is; with cw "spoiler" and text "ignored" the body is exactly
"CW: spoiler". -/
theorem cw_priority_body (tx : Option (List Char)) (c : List Char) (hc : c ≠ []) :
    textContent none (some c) tx = cwMarker ++ c ∧
    displayedBody none (some c) tx = truncateChars 100 (cwMarker ++ c) ∧
    displayedBody none (some (String.toList "spoiler")) (some (String.toList "ignored")) =
      String.toList "CW: spoiler" := by
  have hce : c.isEmpty = false := by
    cases c with
    | nil => exact absurd rfl hc
    | cons x xs => rfl
  refine ⟨?_, ?_, by decide⟩
  · simp [textContent, cwPriorityText, hce]
  · simp [displayedBody, textContent, cwPriorityText, hce]

/-- Witness for C7 at the spec's concrete note. -/
theorem cw_priority_body_witness :
    displayedBody none (some (String.toList "spoiler")) (some (String.toList "ignored")) =
      String.toList "CW: spoiler" :=
  (cw_priority_body (some (String.toList "ignored")) (String.toList "spoiler")
    (by decide)).2.2

/-! ## C3: reconnect backoff -/

theorem connTrace_replicate_connectFail (k n : Nat) :
    connTrace n (List.replicate k ConnEvent.connectFail) =
      (List.range k).map (fun i => some (backoffWait (n + i + 1))) := by
  induction k generalizing n with
  | zero => rfl
  | succ k ih =>
    rw [List.replicate_succ, List.range_succ_eq_map]
    simp only [connTrace, connStep, List.map_cons, List.map_map]
    rw [ih (n + 1)]
    congr 1
    apply List.map_congr_left
    intro i _
    simp only [Function.comp]
    have h : n + 1 + i + 1 = n + (i + 1) + 1 := by omega
    rw [h]

/-- C3 counterexample: a failed subscribe after one consecutive failure
(n = 1) sleeps 2 seconds, not the claimed min(2^(1-1), 5) = 1; and the
failure counter is reset by the successful connect preceding the
subscribe, so it reads 1 after a subscribe failure even when it was 5
before the iteration. -/
theorem subscribe_backoff_cex :
    connStep 0 ConnEvent.subscribeFail = (1, some 2) ∧
    ¬ ((connStep 0 ConnEvent.subscribeFail).2 = some (min (2 ^ (1 - 1)) 5)) ∧
    (connStep 5 ConnEvent.subscribeFail).1 = 1 ∧
    ¬ ((connStep 5 ConnEvent.subscribeFail).1 = 5 + 1) := by
  decide

/-- C3 amended: after n consecutive connect failures with no intervening
success the loop sleeps min(2^(n-1), 5) seconds — the sequence
1, 2, 4, 5, 5, … (for n up to 64, where the wrapping u64 power stays
exact); a failed subscribe instead sleeps a fixed 2 seconds, and the
counter then reads exactly 1 because it is reset to zero by the
successful connect, not by a successful subscribe; a session that
subscribes successfully leaves the counter at zero. -/
theorem backoff_sequence (k n : Nat) (hk : k ≤ 64) :
    connTrace 0 (List.replicate k ConnEvent.connectFail) =
      (List.range k).map (fun i => some (min (2 ^ i) 5)) ∧
    connStep n ConnEvent.subscribeFail = (0 + 1, some 2) ∧
    connStep n ConnEvent.sessionEnd = (0, none) := by
  refine ⟨?_, rfl, rfl⟩
  rw [connTrace_replicate_connectFail]
  apply List.map_congr_left
  intro i hi
  have hik : i < k := List.mem_range.mp hi
  have hpow : 2 ^ i < 2 ^ 64 := Nat.pow_lt_pow_right (by norm_num) (by omega)
  have hpow2 : 2 ^ i < 18446744073709551616 := by
    have h64 : (18446744073709551616 : ℕ) = 2 ^ 64 := by norm_num
    rw [h64]
    exact hpow
  simp [backoffWait, Nat.mod_eq_of_lt hpow2]

/-- Witness for the amended C3: the first five connect-failure sleeps are
1, 2, 4, 5, 5 seconds. -/
theorem backoff_sequence_witness :
    connTrace 0 (List.replicate 5 ConnEvent.connectFail) =
      [some 1, some 2, some 4, some 5, some 5] := by
  rw [(backoff_sequence 5 3 (by decide)).1]
  decide

/-! ## C4 and C9: shortcode scanning and lookup deduplication -/

/-- Resolvedness of a name is preserved by the lookup loop: the emoji vec
only grows. -/
theorem lookupLoop_any_mono (l : List Char → Option (List Char))
    (es : List EmojiRef) (ns : List (List Char)) (p : EmojiRef → Bool)
    (h : es.any p = true) :
    (lookupLoop l es ns).1.any p = true := by
  induction ns generalizing es with
  | nil => exact h
  | cons m ns ih =>
    by_cases hm : es.any (fun e => e.name == m) = true
    · have hstep : lookupLoop l es (m :: ns) = lookupLoop l es ns := by
        simp [lookupLoop, hm]
      rw [hstep]
      exact ih es h
    · cases hl : l m with
      | some u =>
        have hstep : (lookupLoop l es (m :: ns)).1 =
            (lookupLoop l (es ++ [EmojiRef.mk m u]) ns).1 := by
          simp [lookupLoop, hm, hl]
        rw [hstep]
        refine ih _ ?_
        simp [List.any_append, h]
      | none =>
        have hstep : (lookupLoop l es (m :: ns)).1 = (lookupLoop l es ns).1 := by
          simp [lookupLoop, hm, hl]
        rw [hstep]
        exact ih es h

/-- A name already resolved in the emoji vec is never looked up by the
loop. -/
theorem lookupLoop_resolved_count (l : List Char → Option (List Char))
    (es : List EmojiRef) (ns : List (List Char)) (n : List Char)
    (h : es.any (fun e => e.name == n) = true) :
    (lookupLoop l es ns).2.count n = 0 := by
  induction ns generalizing es with
  | nil => rfl
  | cons m ns ih =>
    by_cases hm : es.any (fun e => e.name == m) = true
    · have hstep : lookupLoop l es (m :: ns) = lookupLoop l es ns := by
        simp [lookupLoop, hm]
      rw [hstep]
      exact ih es h
    · have hnm : n ≠ m := by
        intro he
        rw [he] at h
        exact hm h
      cases hl : l m with
      | some u =>
        have hstep : (lookupLoop l es (m :: ns)).2 =
            m :: (lookupLoop l (es ++ [EmojiRef.mk m u]) ns).2 := by
          simp [lookupLoop, hm, hl]
        rw [hstep, List.count_cons_of_ne hnm]
        refine ih _ ?_
        simp [List.any_append, h]
      | none =>
        have hstep : (lookupLoop l es (m :: ns)).2 = m :: (lookupLoop l es ns).2 := by
          simp [lookupLoop, hm, hl]
        rw [hstep, List.count_cons_of_ne hnm]
        exact ih es h

/-- A name whose lookup succeeds is looked up at most once by the loop,
and if it was looked up at all it is resolved afterwards. -/
theorem lookupLoop_success_count (l : List Char → Option (List Char))
    (es : List EmojiRef) (ns : List (List Char)) (n u : List Char)
    (hl : l n = some u) :
    (lookupLoop l es ns).2.count n ≤ 1 ∧
    (1 ≤ (lookupLoop l es ns).2.count n →
      (lookupLoop l es ns).1.any (fun e => e.name == n) = true) := by
  induction ns generalizing es with
  | nil =>
    constructor
    · simp [lookupLoop]
    · intro h
      simp [lookupLoop] at h
  | cons m ns ih =>
    by_cases hm : es.any (fun e => e.name == m) = true
    · have hstep : lookupLoop l es (m :: ns) = lookupLoop l es ns := by
        simp [lookupLoop, hm]
      rw [hstep]
      exact ih es
    · by_cases hmn : m = n
      · subst hmn
        have hstep2 : (lookupLoop l es (m :: ns)).2 =
            m :: (lookupLoop l (es ++ [EmojiRef.mk m u]) ns).2 := by
          simp [lookupLoop, hm, hl]
        have hstep1 : (lookupLoop l es (m :: ns)).1 =
            (lookupLoop l (es ++ [EmojiRef.mk m u]) ns).1 := by
          simp [lookupLoop, hm, hl]
        have hres : (es ++ [EmojiRef.mk m u]).any (fun e => e.name == m) = true := by
          simp [List.any_append]
        have hc0 := lookupLoop_resolved_count l (es ++ [EmojiRef.mk m u]) ns m hres
        have hany := lookupLoop_any_mono l (es ++ [EmojiRef.mk m u]) ns
          (fun e => e.name == m) hres
        constructor
        · rw [hstep2, List.count_cons_self, hc0]
        · intro _
          rw [hstep1]
          exact hany
      · have hnm : n ≠ m := fun he => hmn he.symm
        cases hl2 : l m with
        | some v =>
          have hstep2 : (lookupLoop l es (m :: ns)).2 =
              m :: (lookupLoop l (es ++ [EmojiRef.mk m v]) ns).2 := by
            simp [lookupLoop, hm, hl2]
          have hstep1 : (lookupLoop l es (m :: ns)).1 =
              (lookupLoop l (es ++ [EmojiRef.mk m v]) ns).1 := by
            simp [lookupLoop, hm, hl2]
          constructor
          · rw [hstep2, List.count_cons_of_ne hnm]
            exact (ih (es ++ [EmojiRef.mk m v])).1
          · intro h4
            rw [hstep2, List.count_cons_of_ne hnm] at h4
            rw [hstep1]
            exact (ih (es ++ [EmojiRef.mk m v])).2 h4
        | none =>
          have hstep2 : (lookupLoop l es (m :: ns)).2 = m :: (lookupLoop l es ns).2 := by
            simp [lookupLoop, hm, hl2]
          have hstep1 : (lookupLoop l es (m :: ns)).1 = (lookupLoop l es ns).1 := by
            simp [lookupLoop, hm, hl2]
          constructor
          · rw [hstep2, List.count_cons_of_ne hnm]
            exact (ih es).1
          · intro h4
            rw [hstep2, List.count_cons_of_ne hnm] at h4
            rw [hstep1]
            exact (ih es).2 h4

/-- C4 counterexample: with an emoji-lookup endpoint that finds nothing,
the scan of ":a: :a:" yields the shortcode a twice and the loop issues the
HTTP lookup twice within the one frame — more than the claimed at most
once. -/
theorem duplicate_lookup_cex :
    scanShortcodes (String.toList ":a: :a:") = [['a'], ['a']] ∧
    (lookupLoop (fun _ => none) [] [['a'], ['a']]).2 = [['a'], ['a']] ∧
    ¬ ((lookupLoop (fun _ => none) [] [['a'], ['a']]).2.count ['a'] ≤ 1) := by
  decide

/-- C4 amended: during one frame's processing (note pass then renote pass
over the shared emoji vec) a shortcode whose lookup succeeds is looked up
at most once, and a shortcode already in the resolved set is never looked
up; only a shortcode whose lookup keeps failing can be looked up again at
its later occurrences in the same frame. -/
theorem frame_lookup_dedup (l : List Char → Option (List Char)) (es : List EmojiRef)
    (ns1 ns2 : List (List Char)) (n u : List Char) :
    (l n = some u → (frameLookups l es ns1 ns2).2.count n ≤ 1) ∧
    (es.any (fun e => e.name == n) = true → (frameLookups l es ns1 ns2).2.count n = 0) := by
  constructor
  · intro hl
    have h1 := lookupLoop_success_count l es ns1 n u hl
    have h2 := lookupLoop_success_count l (lookupLoop l es ns1).1 ns2 n u hl
    simp only [frameLookups, List.count_append]
    rcases Nat.lt_or_ge ((lookupLoop l es ns1).2.count n) 1 with hc | hc
    · have hc0 : (lookupLoop l es ns1).2.count n = 0 := by omega
      rw [hc0]
      simpa using h2.1
    · have hres := h1.2 hc
      have hc0 := lookupLoop_resolved_count l (lookupLoop l es ns1).1 ns2 n hres
      rw [hc0]
      omega
  · intro hres
    have h1 := lookupLoop_resolved_count l es ns1 n hres
    have hany := lookupLoop_any_mono l es ns1 (fun e => e.name == n) hres
    have h2 := lookupLoop_resolved_count l (lookupLoop l es ns1).1 ns2 n hany
    simp [frameLookups, List.count_append, h1, h2]

/-- Witness for the amended C4: the shortcode a occurring twice in the note
pass and once in the renote pass, with a succeeding lookup, is looked up
exactly once. -/
theorem frame_lookup_dedup_witness :
    (frameLookups (fun x => if x = ['a'] then some ['u'] else none) []
      [['a'], ['a']] [['a']]).2.count ['a'] ≤ 1 := by
  exact (frame_lookup_dedup (fun x => if x = ['a'] then some ['u'] else none) []
    [['a'], ['a']] [['a']] ['a'] ['u']).1 (by decide)

/-- The scanner consumes a leading well-formed shortcode as one match. -/
theorem scanAux_word (name : List Char) (acc rest : List Char)
    (hw : ∀ c ∈ name, isShortcodeChar c = true) (hne : acc ++ name ≠ []) :
    scanAux (some acc) (name ++ ':' :: rest) = (acc ++ name) :: scanAux none rest := by
  induction name generalizing acc with
  | nil =>
    have hacc : acc.isEmpty = false := by
      cases acc with
      | nil => simp at hne
      | cons x xs => rfl
    simp [scanAux, hacc]
  | cons c cs ih =>
    have hc : isShortcodeChar c = true := hw c (List.mem_cons_self c cs)
    have hcne : ¬ c = ':' := by
      intro he
      rw [he] at hc
      exact absurd hc (by decide)
    have hcs : ∀ x ∈ cs, isShortcodeChar x = true :=
      fun x hx => hw x (List.mem_cons_of_mem c hx)
    have hne2 : (acc ++ [c]) ++ cs ≠ [] := by simp
    calc scanAux (some acc) ((c :: cs) ++ ':' :: rest)
        = scanAux (some (acc ++ [c])) (cs ++ ':' :: rest) := by
          simp [scanAux, hc, hcne]
      _ = ((acc ++ [c]) ++ cs) :: scanAux none rest := ih (acc ++ [c]) hcs hne2
      _ = (acc ++ c :: cs) :: scanAux none rest := by simp

/-- C9 counterexample: the shortcode pattern does not include the hyphen —
scanning ":a-b:" recognizes nothing, so a hyphenated shortcode is never
looked up. -/
theorem hyphen_shortcode_cex :
    scanShortcodes (String.toList ":a-b:") = [] ∧
    (lookupLoop (fun x => some x) [] (scanShortcodes (String.toList ":a-b:"))).2 = [] := by
  decide

/-- C9 amended: the scan recognizes every leading colon-name-colon pattern
whose name consists of alphanumeric or underscore characters (hyphens are
not in the character class), and every recognized shortcode that is not
yet resolved gets a lookup issued. -/
theorem shortcode_scan_lookup (name rest : List Char) (es : List EmojiRef)
    (l : List Char → Option (List Char))
    (h1 : name ≠ [])
    (h2 : ∀ c ∈ name, isShortcodeChar c = true) :
    scanShortcodes (':' :: (name ++ ':' :: rest)) = name :: scanShortcodes rest ∧
    (es.any (fun e => e.name == name) = false →
      1 ≤ (lookupLoop l es (scanShortcodes (':' :: (name ++ ':' :: rest)))).2.count name) := by
  have hscan : scanShortcodes (':' :: (name ++ ':' :: rest)) = name :: scanShortcodes rest := by
    have := scanAux_word name [] rest h2 (by simpa using h1)
    simpa [scanShortcodes, scanAux] using this
  refine ⟨hscan, ?_⟩
  intro hres
  rw [hscan]
  cases hl : l name with
  | some u => simp [lookupLoop, hres, hl, List.count_cons]
  | none => simp [lookupLoop, hres, hl, List.count_cons]

/-- Witness for the amended C9 on the shortcode ok_hand. -/
theorem shortcode_scan_lookup_witness :
    scanShortcodes (String.toList ":ok_hand: hi") =
      String.toList "ok_hand" :: scanShortcodes (String.toList " hi") ∧
    1 ≤ (lookupLoop (fun _ => none) []
      (scanShortcodes (String.toList ":ok_hand: hi"))).2.count (String.toList "ok_hand") := by
  have h := shortcode_scan_lookup (String.toList "ok_hand") (String.toList " hi") []
    (fun _ => none) (by decide) (by decide)
  exact ⟨h.1, h.2 (by decide)⟩

/-! ## C10: token obfuscation round trip -/

theorem decSextet_encSextet : ∀ n : Fin 64, decSextet (encSextet n.val) = some n.val := by
  decide

theorem encSextet_ne_pad : ∀ n : Fin 64, ¬ encSextet n.val = '=' := by
  decide

theorem decSextet_enc (s : Nat) (h : s < 64) : decSextet (encSextet s) = some s :=
  decSextet_encSextet ⟨s, h⟩

theorem encSextet_ne_pad_of_lt (s : Nat) (h : s < 64) : ¬ encSextet s = '=' :=
  encSextet_ne_pad ⟨s, h⟩

theorem obfuscationKey_getD_lt (j : Nat) : obfuscationKey.getD j 0 < 256 := by
  have hall : obfuscationKey.all (fun x => decide (x < 256)) = true := by decide
  rw [List.all_eq_true] at hall
  rw [List.getD_eq_getElem?_getD]
  cases hk : obfuscationKey[j]? with
  | none => simp
  | some k =>
    have hmem : k ∈ obfuscationKey := List.getElem?_mem hk
    have hlt := of_decide_eq_true (hall k hmem)
    simpa using hlt

theorem xorCycle_lt (i : Nat) (bs : List Nat) (h : ∀ b ∈ bs, b < 256) :
    ∀ b ∈ xorCycle i bs, b < 256 := by
  induction bs generalizing i with
  | nil =>
    intro b hb
    simp [xorCycle] at hb
  | cons x xs ih =>
    intro b hb
    simp only [xorCycle, List.mem_cons] at hb
    rcases hb with hb | hb
    · subst hb
      have h1 : x < 2 ^ 8 := h x (by simp)
      have h2 : obfuscationKey.getD (i % obfuscationKey.length) 0 < 2 ^ 8 :=
        obfuscationKey_getD_lt _
      exact Nat.xor_lt_two_pow h1 h2
    · exact ih (i + 1) (fun b hb2 => h b (List.mem_cons_of_mem x hb2)) b hb

theorem xorCycle_xorCycle (i : Nat) (bs : List Nat) :
    xorCycle i (xorCycle i bs) = bs := by
  induction bs generalizing i with
  | nil => rfl
  | cons x xs ih =>
    simp [xorCycle, ih (i + 1), Nat.xor_cancel_right]

theorem base64Decode_base64Encode (bs : List Nat) (h : ∀ b ∈ bs, b < 256) :
    base64Decode (base64Encode bs) = some bs := by
  induction bs using base64Encode.induct with
  | case1 => rfl
  | case2 a =>
    have ha : a < 256 := h a (by simp)
    have d1 := decSextet_enc (a / 4) (by omega)
    have d2 := decSextet_enc (a % 4 * 16) (by omega)
    simp [base64Encode, base64Decode, d1, d2]
    omega
  | case3 a b =>
    have ha : a < 256 := h a (by simp)
    have hb : b < 256 := h b (by simp)
    have d1 := decSextet_enc (a / 4) (by omega)
    have d2 := decSextet_enc (a % 4 * 16 + b / 16) (by omega)
    have d3 := decSextet_enc (b % 16 * 4) (by omega)
    have hne3 := encSextet_ne_pad_of_lt (b % 16 * 4) (by omega)
    simp [base64Encode, base64Decode, hne3, d1, d2, d3]
    constructor
    · omega
    · omega
  | case4 a b c rest ih =>
    have ha : a < 256 := h a (by simp)
    have hb : b < 256 := h b (by simp)
    have hc : c < 256 := h c (by simp)
    have hrest : ∀ x ∈ rest, x < 256 := by
      intro x hx
      exact h x (by simp [hx])
    have d1 := decSextet_enc (a / 4) (by omega)
    have d2 := decSextet_enc (a % 4 * 16 + b / 16) (by omega)
    have d3 := decSextet_enc (b % 16 * 4 + c / 64) (by omega)
    have d4 := decSextet_enc (c % 64) (by omega)
    have hne3 := encSextet_ne_pad_of_lt (b % 16 * 4 + c / 64) (by omega)
    have hne4 := encSextet_ne_pad_of_lt (c % 64) (by omega)
    simp [base64Encode, base64Decode, hne3, hne4, d1, d2, d3, d4, ih hrest]
    refine ⟨?_, ?_, ?_⟩ <;> omega

/-- C10: obfuscate_token XORs the token's bytes with the fixed cyclic key
and Base64-encodes the result; deobfuscate_token decodes and XORs again,
so every token round-trips exactly. -/
theorem token_obfuscation_roundtrip (tokenBytes : List Nat)
    (h : ∀ b ∈ tokenBytes, b < 256) :
    deobfuscateToken (obfuscateToken tokenBytes) = some tokenBytes := by
  unfold obfuscateToken deobfuscateToken
  rw [base64Decode_base64Encode _ (xorCycle_lt 0 tokenBytes h)]
  simp [xorCycle_xorCycle]

/-- Witness for C10 on the bytes of the token "token". -/
theorem token_obfuscation_roundtrip_witness :
    deobfuscateToken (obfuscateToken ((String.toList "token").map Char.toNat)) =
      some ((String.toList "token").map Char.toNat) :=
  token_obfuscation_roundtrip ((String.toList "token").map Char.toNat) (by decide)

end MisskeyViewer
